import Mathlib

/-
Verification of the epidemic-simulator core in `sir.py` (classes `SIRStatus`,
`Disease`, `Infection`, `Person`, `Community`).

Modelling conventions, stated once here:

- Python floats are embedded as `ℚ` wherever the program only stores and
  compares them (rates, uniform draws, average interaction counts), and as `ℝ`
  where the program applies `np.exp` / `np.log` (the `daily_mortality` hazard).
- Every call to a numpy sampler (`poisson`, `uniform`, `geometric`, `choice`)
  is a nondeterministic input: the embedded operation takes the drawn value as
  an explicit argument.  Theorems about all behaviours quantify over all draw
  values; index draws are allowed to be arbitrary naturals, which
  over-approximates the sampler's actual support (sound for invariants).
- Python objects are mutable and aliased; the community is embedded as a
  `List Person` state, persons are denoted by their index in the list, and each
  mutating method becomes a function from the state to the new state.
- Python instance attributes are created by assignment.  Attributes that the
  source only creates on some paths are embedded as `Option` fields that are
  `none` while the attribute does not exist.  This matters twice, and both
  spots are bugs in the source:
  - `Infection._set_status_finished` executes
    `self.InfectionState: self.InfectionState = Infection.InfectionState.FINISHED`,
    which creates an instance attribute named `InfectionState` shadowing the
    nested class, instead of assigning `self.status` (contrast
    `_set_status_illness`, which assigns `self.status`).  Embedded as the field
    `attr_InfectionState`.
  - `Infection.get_recovery_time` reads `self.incubation_period` and
    `self.illness_period`; the constructor only ever creates
    `self._incubation_period` and `self._illness_period`, and no method creates
    the un-underscored names, so both reads raise `AttributeError`.  Embedded
    as the always-`none` fields `attr_incubation_period` /
    `attr_illness_period`, read through `Option.bind`.
-/

/-- Embedding of class `SIRStatus` in `sir.py`: a person's compartment. -/
inductive SIRStatus
  | SUSCEPTIBLE
  | INFECTED
  | RECOVERED
  | DEAD
deriving DecidableEq

/-- Embedding of the nested class `Infection.InfectionState` in `sir.py`. -/
inductive InfectionState
  | INCUBATION
  | ILLNESS
  | FINISHED
deriving DecidableEq

/-- Embedding of class `Disease` in `sir.py`: immutable parameters.  The two
period fields are the Poisson rates handed to `PoissonDist`; sampling from
those distributions is a nondeterministic input (see `Infection.init`). -/
structure Disease where
  infection_rate : ℚ
  cfr : ℚ
  incubation_period : ℚ
  illness_period : ℚ
  name : Option String
deriving DecidableEq

/-- Embedding of `Disease.get_infection_rate`. -/
def Disease.get_infection_rate (d : Disease) : ℚ :=
  d.infection_rate

/-- Embedding of the state of a Python `Infection` object.  The constructor's
two `PoissonDist` samples are stored in `_incubation_period` /
`_illness_period`; the counters start at 0 and are incremented by
`advance_infection`.  The three `attr_*` fields model dynamically created
instance attributes as explained in the header comment; none of them exists
right after `Infection.__init__`.  The derived float `daily_mortality` is a
pure function of `disease.cfr` and `_illness_period` and is embedded separately
as `Infection.daily_mortality_val` (it involves `exp`/`log` and hence lives in
`ℝ`, outside the executable state). -/
structure Infection where
  disease : Disease
  _incubation_period : ℕ
  _illness_period : ℕ
  status : InfectionState
  _incubation_counter : ℕ
  _illness_counter : ℕ
  attr_InfectionState : Option InfectionState
  attr_incubation_period : Option ℕ
  attr_illness_period : Option ℕ
deriving DecidableEq

/-- Embedding of `Infection.__init__(person, disease)`.  `incSample` and
`illSample` are the values returned by the two `PoissonDist.sample()` calls
(`disease.get_incubation_period()` / `disease.get_illness_period()`); a numpy
Poisson draw is a natural number and 0 is in the support for every rate.
Note the source applies no floor to `illSample` before it is stored and used
as the divisor of the hazard formula.  The back-reference `self._person` is
dropped: it is never read by any method in the source. -/
def Infection.init (d : Disease) (incSample illSample : ℕ) : Infection :=
  { disease := d
    _incubation_period := incSample
    _illness_period := illSample
    status := InfectionState.INCUBATION
    _incubation_counter := 0
    _illness_counter := 0
    attr_InfectionState := none
    attr_incubation_period := none
    attr_illness_period := none }

/-- Embedding of the value `self.daily_mortality` computed in
`Infection.__init__`:  `1 - np.exp(np.log(1 - self._disease._cfr) / self._illness_period)`.
Stated over `ℝ` with the case-fatality rate `m` and the realized illness
period `L`; in Lean, division by a zero `L` yields 0 (numpy instead emits a
divide-by-zero warning and returns `-inf` or `nan`). -/
noncomputable def daily_mortality (m : ℝ) (L : ℕ) : ℝ :=
  1 - Real.exp (Real.log (1 - m) / L)

/-- The hazard stored by `Infection.__init__`, as a function of the stored
fields of the embedded state. -/
noncomputable def Infection.daily_mortality_val (i : Infection) : ℝ :=
  daily_mortality (i.disease.cfr : ℝ) i._illness_period

/-- Embedding of `Infection.advance_infection`.  INCUBATION: increment
`_incubation_counter`; on reaching `_incubation_period`, `_set_status_illness`
assigns `self.status = ILLNESS`.  ILLNESS: increment `_illness_counter`; on
reaching `_illness_period`, `_set_status_finished` executes — which, in the
source, assigns `Infection.InfectionState.FINISHED` to the instance attribute
`self.InfectionState`, not to `self.status` (see header comment).  Any other
status: fall through with no change. -/
def Infection.advance_infection (i : Infection) : Infection :=
  if i.status = InfectionState.INCUBATION then
    let i' := { i with _incubation_counter := i._incubation_counter + 1 }
    if i'._incubation_counter ≥ i'._incubation_period then
      { i' with status := InfectionState.ILLNESS }
    else i'
  else if i.status = InfectionState.ILLNESS then
    let i' := { i with _illness_counter := i._illness_counter + 1 }
    if i'._illness_counter ≥ i'._illness_period then
      { i' with attr_InfectionState := some InfectionState.FINISHED }
    else i'
  else i

/-- Embedding of `Infection.get_recovery_time`: the body is
`return self.incubation_period + self.illness_period`, reading the two
attributes that no code path ever creates; `none` models the resulting
`AttributeError`. -/
def Infection.get_recovery_time (i : Infection) : Option ℕ :=
  i.attr_incubation_period.bind fun a =>
    i.attr_illness_period.bind fun b => some (a + b)

/-- Embedding of the state of a Python `Person` object.  `survival_days` is an
instance attribute first created by `infect`; it is initialised to 0 here
because no reachable code path reads it before `infect` has run (reads happen
only in `advance_condition` under the `is_infected` guard). -/
structure Person where
  avg_interactions : ℚ
  disease : Option Disease
  infection : Option Infection
  status : SIRStatus
  survival_days : ℤ
deriving DecidableEq

/-- Embedding of `Person.__init__(avg_interactions)`: a negative argument is
clamped to 0; no disease, no infection, SUSCEPTIBLE. -/
def Person.init (avg : ℚ) : Person :=
  { avg_interactions := if avg < 0 then 0 else avg
    disease := none
    infection := none
    status := SIRStatus.SUSCEPTIBLE
    survival_days := 0 }

/-- Embedding of `Person.is_susceptible` (returns `True`/`False` via if/else). -/
def Person.is_susceptible (p : Person) : Bool :=
  if p.status = SIRStatus.SUSCEPTIBLE then true else false

/-- Embedding of `Person.is_infected` (returns `True`/`False` via if/else). -/
def Person.is_infected (p : Person) : Bool :=
  if p.status = SIRStatus.INFECTED then true else false

/-- The random draws consumed by one call to `Person.infect`: the two Poisson
samples taken inside `Infection.__init__` and the
`np.random.geometric(daily_mortality)` sample assigned to `survival_days`.
The embedding allows any integer, an over-approximation that is sound for the
universal theorems below; numpy's geometric requires a success probability in
(0, 1] (it raises for `daily_mortality = 0`, i.e. `cfr = 0`) and returns an
integer that is at least 1, so concrete counterexample states that rely on a
particular `geomSample` value use a disease with `cfr > 0`, where that draw
is genuinely in the sampler's support. -/
structure InfectDraws where
  incSample : ℕ
  illSample : ℕ
  geomSample : ℤ
deriving DecidableEq

/-- Embedding of `Person.infect(disease)`.  The source performs no status
check whatsoever: it unconditionally stores the disease, sets
`status = INFECTED`, builds a fresh `Infection` and samples `survival_days`. -/
def Person.infect (p : Person) (d : Disease) (dr : InfectDraws) : Person :=
  { p with
    disease := some d
    status := SIRStatus.INFECTED
    infection := some (Infection.init d dr.incSample dr.illSample)
    survival_days := dr.geomSample }

/-- Embedding of `Person.interact(person)`.  `r` is the value of the
`np.random.uniform()` draw (taken by the source only inside the guard; passing
it unconditionally and reading it conditionally preserves the observable
state).  Returns the pair (state of `self`, state of `person`) after the call.
In the guarded branch the source reads `self.disease.get_infection_rate()`;
an infected person always has a disease stored, so the `none` arm (Python
would raise on `None`) is unreachable and returns the states unchanged. -/
def Person.interact (p other : Person) (r : ℚ) (dr : InfectDraws) :
    Person × Person :=
  if p.is_infected && other.is_susceptible then
    match p.disease with
    | some d => if r < d.get_infection_rate then (p, other.infect d dr) else (p, other)
    | none => (p, other)
  else (p, other)

/-- Embedding of `Person.advance_condition`.  Guarded by `is_infected`; the
source then dereferences `self.infection` (the `none` arm would be a Python
`AttributeError`; it is unreachable, INFECTED persons hold an infection, and
the embedding leaves the state unchanged there).  After advancing the
infection: in ILLNESS, decrement `survival_days` and die at ≤ 0; in FINISHED,
recover and release the infection; otherwise just store the advanced
infection. -/
def Person.advance_condition (p : Person) : Person :=
  if p.is_infected then
    match p.infection with
    | none => p
    | some inf =>
      let inf' := inf.advance_infection
      if inf'.status = InfectionState.ILLNESS then
        let s := p.survival_days - 1
        if s ≤ 0 then
          { p with infection := some inf', survival_days := s, status := SIRStatus.DEAD }
        else
          { p with infection := some inf', survival_days := s }
      else if inf'.status = InfectionState.FINISHED then
        { p with infection := none, status := SIRStatus.RECOVERED }
      else { p with infection := some inf' }
  else p

/-- Default person used by `List.getD` when stating per-index properties; the
index range never actually exceeds the population in the source. -/
def pd : Person :=
  Person.init 0

/-- Embedding of `Community.__init__(interaction_dist, size)`: the community
state is the list `self.people`; `samples` are the `size` values returned by
`interaction_dist.sample()`, one per person. -/
def Community.init (samples : List ℚ) : List Person :=
  samples.map Person.init

/-- One iteration of the loop body in `Community.init_infected`: `p.infect(disease)`
for the person at index `i` (out-of-range indices, which numpy never produces,
leave the state unchanged). -/
def infect_at (people : List Person) (i : ℕ) (d : Disease) (dr : InfectDraws) :
    List Person :=
  match people[i]? with
  | some p => people.set i (p.infect d dr)
  | none => people

/-- Embedding of `Community.init_infected(num, disease)`.  The source draws
`infected = choice(self.people, size=num)` — numpy's default is
`replace=True`, so this is `num` draws WITH replacement (duplicates possible),
and no exception is raised when `num` exceeds the population size — and then
infects each drawn person in order.  `picks` is the drawn sequence: one index
and one bundle of infection draws per iteration, `picks.length = num`. -/
def init_infected (people : List Person) (d : Disease)
    (picks : List (ℕ × InfectDraws)) : List Person :=
  picks.foldl (fun st pr => infect_at st pr.1 d pr.2) people

/-- The random draws consumed by one `p.interact(partner)` call inside
`Community.interact`: the partner's index `j` (one element of the
`choice(..., replace=False)` partner draw) and the draws `Person.interact`
may consume. -/
structure InteractDraw where
  j : ℕ
  r : ℚ
  dr : InfectDraws
deriving DecidableEq

/-- One `p.interact(i)` call at the community level: person `i` interacts with
person `j`; both slots are written back (the first is in fact unchanged). -/
def interact_at (people : List Person) (i j : ℕ) (r : ℚ) (dr : InfectDraws) :
    List Person :=
  match people[i]?, people[j]? with
  | some p, some q =>
      let pq := p.interact q r dr
      (people.set i pq.1).set j pq.2
  | _, _ => people

/-- The inner loop of `Community.interact` for one person `i`: numpy draws
`n_interactions ~ poisson(p.avg_interactions)` and then `n_interactions`
distinct partners from the live sample minus `p`; `ds` is that drawn list
(arbitrary index lists over-approximate the sampler, which also raises when
more distinct partners are requested than exist). -/
def interact_from (people : List Person) (i : ℕ) (ds : List InteractDraw) :
    List Person :=
  ds.foldl (fun st dw => interact_at st i dw.j dw.r dw.dr) people

/-- One `p.advance_condition()` call at the community level. -/
def advance_at (people : List Person) (i : ℕ) : List Person :=
  match people[i]? with
  | some p => people.set i p.advance_condition
  | none => people

/-- The per-tick oracle: the permutation drawn by
`choice(self.people, size=self.size, replace=False)` together with, for each
position, the interaction draws of that person's inner loop.  Arbitrary index
lists over-approximate the permutation. -/
abbrev TickOracle : Type :=
  List (ℕ × List InteractDraw)

/-- The filter `[p for p in sample if p.status != SIRStatus.DEAD]` evaluated
against a given state. -/
def live_filter (people : List Person) (o : TickOracle) : TickOracle :=
  o.filter fun pr =>
    match people[pr.1]? with
    | some p => decide (p.status ≠ SIRStatus.DEAD)
    | none => false

/-- The filter `[p for p in sample if p.status == SIRStatus.INFECTED]`
evaluated against a given state. -/
def infected_filter (people : List Person) (o : TickOracle) : TickOracle :=
  o.filter fun pr =>
    match people[pr.1]? with
    | some p => decide (p.status = SIRStatus.INFECTED)
    | none => false

/-- Embedding of `Community.interact(sample)`: the outer loop over the sampled
persons, each running their inner partner loop. -/
def interact_pass (people : List Person) (l : TickOracle) : List Person :=
  l.foldl (fun st pr => interact_from st pr.1 pr.2) people

/-- Embedding of `Community.advance_conditions(sample)`. -/
def advance_pass (people : List Person) (l : TickOracle) : List Person :=
  l.foldl (fun st pr => advance_at st pr.1) people

/-- Embedding of `Community.advance_time`.  Exactly as in the source: the DEAD
filter is evaluated on the state before the interaction pass
(`self.interact([p for p in sample if p.status != DEAD])`), the INFECTED
filter on the state after it (the `advance_conditions` argument is built only
when that call is made), and both passes run in permutation order. -/
def advance_time (people : List Person) (o : TickOracle) : List Person :=
  advance_pass (interact_pass people (live_filter people o))
    (infected_filter (interact_pass people (live_filter people o)) o)

/-- A run of consecutive `advance_time` ticks. -/
def run_ticks (people : List Person) (ts : List TickOracle) : List Person :=
  ts.foldl advance_time people

/-- The states reachable by the public operations: `Community.__init__`,
`Community.init_infected`, `Community.advance_time`, with arbitrary draws. -/
inductive Reachable : List Person → Prop
  | init (samples : List ℚ) : Reachable (Community.init samples)
  | seed (st : List Person) (d : Disease) (picks : List (ℕ × InfectDraws)) :
      Reachable st → Reachable (init_infected st d picks)
  | tick (st : List Person) (o : TickOracle) :
      Reachable st → Reachable (advance_time st o)

/-- The forward order on statuses: a status may stay put, leave SUSCEPTIBLE,
or move from INFECTED to one of the two terminal statuses; RECOVERED and DEAD
are below nothing else. -/
def statusLe (a b : SIRStatus) : Prop :=
  a = b ∨ (a = SIRStatus.SUSCEPTIBLE ∧ b ≠ SIRStatus.SUSCEPTIBLE) ∨
    (a = SIRStatus.INFECTED ∧ (b = SIRStatus.RECOVERED ∨ b = SIRStatus.DEAD))

instance (a b : SIRStatus) : Decidable (statusLe a b) := by
  unfold statusLe
  infer_instance

/-- The invariant relating a person's infection reference to their status in
the source as written: the reference is created on infection and released only
on recovery, so it is held exactly in the INFECTED and DEAD statuses. -/
def InvInf (p : Person) : Prop :=
  p.infection.isSome = true ↔
    (p.status = SIRStatus.INFECTED ∨ p.status = SIRStatus.DEAD)

instance (p : Person) : Decidable (InvInf p) := by
  unfold InvInf
  infer_instance

/-- A person whose stored disease (if any) has transmission probability 0. -/
def rateZero (p : Person) : Bool :=
  match p.disease with
  | some d => d.infection_rate == 0
  | none => true

/-- All slots of the state (including the out-of-range default) satisfy a
predicate. -/
def AllP (P : Person → Prop) (st : List Person) : Prop :=
  ∀ k, P (st.getD k pd)

section ListHelpers

variable {α : Type}

theorem getD_set_eq (l : List α) (i : ℕ) (a : α) (k : ℕ) (d : α) :
    (l.set i a).getD k d = if i = k ∧ i < l.length then a else l.getD k d := by
  induction l generalizing i k with
  | nil => simp
  | cons x t ih =>
    cases i with
    | zero =>
      cases k with
      | zero => simp
      | succ k' => simp
    | succ i' =>
      cases k with
      | zero => simp
      | succ k' =>
        simp only [List.set, List.getD_cons_succ, List.length_cons, ih i' k']
        congr 1
        simp [Nat.succ_lt_succ_iff]

theorem set_self_of_getElem? :
    ∀ (l : List α) (i : ℕ) (x : α), l[i]? = some x → l.set i x = l := by
  intro l
  induction l with
  | nil => intro i x h; simp at h
  | cons a t ih =>
    intro i x h
    cases i with
    | zero =>
      simp at h
      simp [h]
    | succ n =>
      simp at h
      simp [List.set]
      exact ih n x h

theorem getD_eq_of_getElem? (l : List α) (i : ℕ) (x d : α) (h : l[i]? = some x) :
    l.getD i d = x := by
  rw [List.getD_eq_getElem?_getD, h]
  rfl

theorem countP_le_of_pointwise (p : α → Bool) (d : α) :
    ∀ (l1 l2 : List α), l1.length = l2.length →
      (∀ k, p (l1.getD k d) = true → p (l2.getD k d) = true) →
      l1.countP p ≤ l2.countP p := by
  intro l1
  induction l1 with
  | nil => intro l2 h _; simp
  | cons x t ih =>
    intro l2 hlen hpw
    cases l2 with
    | nil => simp at hlen
    | cons y t2 =>
      simp only [List.countP_cons]
      have h0 := hpw 0
      simp only [List.getD_cons_zero] at h0
      have ht := ih t2 (by simpa using hlen) (fun k => by
        have := hpw (k + 1)
        simpa using this)
      by_cases hx : p x = true
      · simp [hx, h0 hx]
        omega
      · simp at hx
        simp [hx]
        omega

theorem foldl_preserve {β : Type} (P : List Person → Prop)
    (f : List Person → β → List Person)
    (hf : ∀ st b, P st → P (f st b)) :
    ∀ (bs : List β) (st : List Person), P st → P (bs.foldl f st) := by
  intro bs
  induction bs with
  | nil => intro st h; exact h
  | cons b t ih => intro st h; exact ih (f st b) (hf st b h)

theorem foldl_preserve_mem {β : Type} (P : List Person → Prop)
    (f : List Person → β → List Person) :
    ∀ (bs : List β), (∀ st b, b ∈ bs → P st → P (f st b)) →
      ∀ st, P st → P (bs.foldl f st) := by
  intro bs
  induction bs with
  | nil => intro _ st h; exact h
  | cons b t ih =>
    intro hf st h
    exact ih (fun st' b' hb' => hf st' b' (List.mem_cons_of_mem _ hb'))
      (f st b) (hf st b (List.mem_cons_self _ _) h)

end ListHelpers

section PersonLemmas

theorem statusLe_refl (a : SIRStatus) : statusLe a a := by
  cases a <;> decide

theorem statusLe_trans (a b c : SIRStatus) (h1 : statusLe a b)
    (h2 : statusLe b c) : statusLe a c := by
  cases a <;> cases b <;> cases c <;> revert h1 h2 <;> decide

theorem statusLe_nonSusc (a b : SIRStatus) (h : statusLe a b)
    (ha : a ≠ SIRStatus.SUSCEPTIBLE) : b ≠ SIRStatus.SUSCEPTIBLE := by
  cases a <;> cases b <;> revert h <;> simp_all <;> decide

theorem Person.interact_fst (p q : Person) (r : ℚ) (dr : InfectDraws) :
    (p.interact q r dr).1 = p := by
  unfold Person.interact
  split
  · split
    · split <;> rfl
    · rfl
  · rfl

theorem Person.interact_snd_cases (p q : Person) (r : ℚ) (dr : InfectDraws) :
    (p.interact q r dr).2 = q ∨
      (q.status = SIRStatus.SUSCEPTIBLE ∧
        ∃ d, (p.interact q r dr).2 = q.infect d dr) := by
  unfold Person.interact
  split
  · next hguard =>
    have hq : q.status = SIRStatus.SUSCEPTIBLE := by
      have := (Bool.and_eq_true _ _).mp hguard
      unfold Person.is_susceptible at this
      by_contra hne
      simp [hne] at this
    split
    · next d hd =>
      split
      · exact Or.inr ⟨hq, d, rfl⟩
      · exact Or.inl rfl
    · exact Or.inl rfl
  · exact Or.inl rfl

theorem Person.interact_eq_of_rateZero (p q : Person) (r : ℚ) (dr : InfectDraws)
    (hp : rateZero p = true) (hr : 0 ≤ r) : p.interact q r dr = (p, q) := by
  unfold Person.interact
  split
  · cases hd : p.disease with
    | none => rfl
    | some d =>
      have h0 : d.infection_rate = 0 := by
        unfold rateZero at hp
        rw [hd] at hp
        exact beq_iff_eq.mp hp
      have hnot : ¬ r < d.get_infection_rate := by
        unfold Disease.get_infection_rate
        rw [h0]
        exact not_lt.mpr hr
      dsimp only
      rw [if_neg hnot]
  · rfl

theorem Person.infect_status (p : Person) (d : Disease) (dr : InfectDraws) :
    (p.infect d dr).status = SIRStatus.INFECTED := rfl

theorem Person.infect_InvInf (p : Person) (d : Disease) (dr : InfectDraws) :
    InvInf (p.infect d dr) := by
  unfold InvInf Person.infect
  simp

theorem Person.advance_condition_of_not_infected (p : Person)
    (h : p.status ≠ SIRStatus.INFECTED) : p.advance_condition = p := by
  unfold Person.advance_condition Person.is_infected
  simp [h]

theorem Person.advance_condition_status_cases (p : Person) :
    p.advance_condition.status = p.status ∨
      (p.status = SIRStatus.INFECTED ∧
        (p.advance_condition.status = SIRStatus.DEAD ∨
          p.advance_condition.status = SIRStatus.RECOVERED)) := by
  unfold Person.advance_condition
  by_cases h : p.is_infected = true
  · have hst : p.status = SIRStatus.INFECTED := by
      unfold Person.is_infected at h
      by_contra hne
      simp [hne] at h
    simp only [h, if_true]
    cases hinf : p.infection with
    | none => exact Or.inl rfl
    | some inf =>
      dsimp only
      split_ifs with h1 h2 h3
      · exact Or.inr ⟨hst, Or.inl rfl⟩
      · exact Or.inl rfl
      · exact Or.inr ⟨hst, Or.inr rfl⟩
      · exact Or.inl rfl
  · simp [h]

theorem Person.advance_condition_statusLe (p : Person) :
    statusLe p.status p.advance_condition.status := by
  rcases p.advance_condition_status_cases with h | ⟨hst, h⟩
  · rw [h]
    exact statusLe_refl _
  · rw [hst]
    rcases h with h | h <;> rw [h] <;> decide

theorem Person.advance_condition_disease (p : Person) :
    p.advance_condition.disease = p.disease := by
  unfold Person.advance_condition
  by_cases h : p.is_infected = true
  · simp only [h, if_true]
    cases hinf : p.infection with
    | none => rfl
    | some inf =>
      dsimp only
      split_ifs <;> rfl
  · simp [h]

theorem Person.advance_condition_rateZero (p : Person)
    (h : rateZero p = true) : rateZero p.advance_condition = true := by
  unfold rateZero at h ⊢
  rw [p.advance_condition_disease]
  exact h

theorem Person.advance_condition_InvInf (p : Person) (h : InvInf p) :
    InvInf p.advance_condition := by
  unfold Person.advance_condition
  by_cases hi : p.is_infected = true
  · have hst : p.status = SIRStatus.INFECTED := by
      unfold Person.is_infected at hi
      by_contra hne
      simp [hne] at hi
    simp only [hi, if_true]
    cases hinf : p.infection with
    | none => exact h
    | some inf =>
      dsimp only
      split_ifs with h1 h2 h3
      · unfold InvInf
        simp
      · unfold InvInf
        simp [hst]
      · unfold InvInf
        simp
      · unfold InvInf
        simp [hst]
  · simp [hi]
    exact h

theorem InvInf_pd : InvInf pd := by
  decide

theorem InvInf_init (avg : ℚ) : InvInf (Person.init avg) := by
  unfold InvInf Person.init
  simp

theorem rateZero_pd : rateZero pd = true := by
  decide

end PersonLemmas

section CommunityLemmas

theorem Community.init_getD (samples : List ℚ) (k : ℕ) :
    ∃ a, (Community.init samples).getD k pd = Person.init a := by
  unfold Community.init
  induction samples generalizing k with
  | nil => exact ⟨0, rfl⟩
  | cons x t ih =>
    cases k with
    | zero => exact ⟨x, rfl⟩
    | succ k' => simpa using ih k'

theorem infect_at_length (st : List Person) (i : ℕ) (d : Disease)
    (dr : InfectDraws) : (infect_at st i d dr).length = st.length := by
  unfold infect_at
  split
  · exact List.length_set st i _
  · rfl

theorem interact_at_length (st : List Person) (i j : ℕ) (r : ℚ)
    (dr : InfectDraws) : (interact_at st i j r dr).length = st.length := by
  unfold interact_at
  split
  · rw [List.length_set, List.length_set]
  · rfl

theorem advance_at_length (st : List Person) (i : ℕ) :
    (advance_at st i).length = st.length := by
  unfold advance_at
  split
  · exact List.length_set st i _
  · rfl

theorem interact_from_length (st : List Person) (i : ℕ)
    (ds : List InteractDraw) : (interact_from st i ds).length = st.length := by
  unfold interact_from
  refine foldl_preserve (fun s => s.length = st.length) _ ?_ ds st rfl
  intro s dw h
  rw [interact_at_length]
  exact h

theorem interact_pass_length (st : List Person) (l : TickOracle) :
    (interact_pass st l).length = st.length := by
  unfold interact_pass
  refine foldl_preserve (fun s => s.length = st.length) _ ?_ l st rfl
  intro s pr h
  rw [interact_from_length]
  exact h

theorem advance_pass_length (st : List Person) (l : TickOracle) :
    (advance_pass st l).length = st.length := by
  unfold advance_pass
  refine foldl_preserve (fun s => s.length = st.length) _ ?_ l st rfl
  intro s pr h
  rw [advance_at_length]
  exact h

theorem advance_time_length (st : List Person) (o : TickOracle) :
    (advance_time st o).length = st.length := by
  unfold advance_time
  rw [advance_pass_length, interact_pass_length]

theorem init_infected_length (st : List Person) (d : Disease)
    (picks : List (ℕ × InfectDraws)) :
    (init_infected st d picks).length = st.length := by
  unfold init_infected
  refine foldl_preserve (fun s => s.length = st.length) _ ?_ picks st rfl
  intro s pr h
  rw [infect_at_length]
  exact h

theorem interact_at_statusLe (st : List Person) (i j : ℕ) (r : ℚ)
    (dr : InfectDraws) (k : ℕ) :
    statusLe ((st.getD k pd).status)
      (((interact_at st i j r dr).getD k pd).status) := by
  unfold interact_at
  split
  · next p q hp hq =>
    rw [getD_set_eq, getD_set_eq]
    split
    · next hjk =>
      rw [← hjk.1, getD_eq_of_getElem? st j q pd hq]
      rcases Person.interact_snd_cases p q r dr with h | ⟨hsus, d, h⟩
      · rw [h]
        exact statusLe_refl _
      · rw [h, hsus, Person.infect_status]
        decide
    · split
      · next hik =>
        rw [← hik.1, getD_eq_of_getElem? st i p pd hp,
          Person.interact_fst p q r dr]
        exact statusLe_refl _
      · exact statusLe_refl _
  · exact statusLe_refl _

theorem advance_at_statusLe (st : List Person) (i k : ℕ) :
    statusLe ((st.getD k pd).status) (((advance_at st i).getD k pd).status) := by
  unfold advance_at
  split
  · next p hp =>
    rw [getD_set_eq]
    split
    · next hik =>
      rw [← hik.1, getD_eq_of_getElem? st i p pd hp]
      exact p.advance_condition_statusLe
    · exact statusLe_refl _
  · exact statusLe_refl _

theorem interact_from_statusLe (st : List Person) (i : ℕ)
    (ds : List InteractDraw) (k : ℕ) :
    statusLe ((st.getD k pd).status)
      (((interact_from st i ds).getD k pd).status) := by
  unfold interact_from
  refine foldl_preserve
    (fun s => ∀ k, statusLe ((st.getD k pd).status) ((s.getD k pd).status))
    _ ?_ ds st (fun k => statusLe_refl _) k
  intro s dw h k'
  exact statusLe_trans _ _ _ (h k') (interact_at_statusLe s i dw.j dw.r dw.dr k')

theorem interact_pass_statusLe (st : List Person) (l : TickOracle) (k : ℕ) :
    statusLe ((st.getD k pd).status)
      (((interact_pass st l).getD k pd).status) := by
  unfold interact_pass
  refine foldl_preserve
    (fun s => ∀ k, statusLe ((st.getD k pd).status) ((s.getD k pd).status))
    _ ?_ l st (fun k' => statusLe_refl _) k
  intro s pr h k'
  exact statusLe_trans _ _ _ (h k') (interact_from_statusLe s pr.1 pr.2 k')

theorem advance_pass_statusLe (st : List Person) (l : TickOracle) (k : ℕ) :
    statusLe ((st.getD k pd).status)
      (((advance_pass st l).getD k pd).status) := by
  unfold advance_pass
  refine foldl_preserve
    (fun s => ∀ k, statusLe ((st.getD k pd).status) ((s.getD k pd).status))
    _ ?_ l st (fun k' => statusLe_refl _) k
  intro s pr h k'
  exact statusLe_trans _ _ _ (h k') (advance_at_statusLe s pr.1 k')

theorem advance_time_statusLe (st : List Person) (o : TickOracle) (k : ℕ) :
    statusLe ((st.getD k pd).status)
      (((advance_time st o).getD k pd).status) := by
  unfold advance_time
  exact statusLe_trans _ _ _ (interact_pass_statusLe st (live_filter st o) k)
    (advance_pass_statusLe _ _ k)

theorem advance_at_pointwise_k (P : Person → Prop)
    (hP : ∀ p, P p → P p.advance_condition) (st : List Person) (i k : ℕ)
    (h : P (st.getD k pd)) : P ((advance_at st i).getD k pd) := by
  unfold advance_at
  split
  · next p hp =>
    rw [getD_set_eq]
    split
    · next hik =>
      refine hP p ?_
      rw [← getD_eq_of_getElem? st i p pd hp, hik.1]
      exact h
    · exact h
  · exact h

theorem infect_at_InvInf (st : List Person) (i : ℕ) (d : Disease)
    (dr : InfectDraws) (k : ℕ) (h : InvInf (st.getD k pd)) :
    InvInf ((infect_at st i d dr).getD k pd) := by
  unfold infect_at
  split
  · next p hp =>
    rw [getD_set_eq]
    split
    · exact Person.infect_InvInf p d dr
    · exact h
  · exact h

theorem interact_at_InvInf (st : List Person) (i j : ℕ) (r : ℚ)
    (dr : InfectDraws) (k : ℕ) (h : ∀ k', InvInf (st.getD k' pd)) :
    InvInf ((interact_at st i j r dr).getD k pd) := by
  unfold interact_at
  split
  · next p q hp hq =>
    rw [getD_set_eq, getD_set_eq]
    split
    · rcases Person.interact_snd_cases p q r dr with he | ⟨hsus, d, he⟩
      · rw [he, ← getD_eq_of_getElem? st j q pd hq]
        exact h j
      · rw [he]
        exact Person.infect_InvInf q d dr
    · split
      · rw [Person.interact_fst p q r dr, ← getD_eq_of_getElem? st i p pd hp]
        exact h i
      · exact h k
  · exact h k

theorem interact_from_InvInf (st : List Person) (i : ℕ)
    (ds : List InteractDraw) (h : AllP InvInf st) :
    AllP InvInf (interact_from st i ds) := by
  unfold interact_from
  refine foldl_preserve (AllP InvInf) _ ?_ ds st h
  intro s dw hs k
  exact interact_at_InvInf s i dw.j dw.r dw.dr k hs

theorem advance_time_InvInf (st : List Person) (o : TickOracle)
    (h : AllP InvInf st) : AllP InvInf (advance_time st o) := by
  unfold advance_time advance_pass interact_pass
  refine foldl_preserve (AllP InvInf) _ ?_ _ _ ?_
  · intro s pr hs k
    exact advance_at_pointwise_k InvInf Person.advance_condition_InvInf s pr.1 k (hs k)
  · refine foldl_preserve (AllP InvInf) _ ?_ _ _ h
    intro s pr hs
    exact interact_from_InvInf s pr.1 pr.2 hs

theorem init_infected_InvInf (st : List Person) (d : Disease)
    (picks : List (ℕ × InfectDraws)) (h : AllP InvInf st) :
    AllP InvInf (init_infected st d picks) := by
  unfold init_infected
  refine foldl_preserve (AllP InvInf) _ ?_ picks st h
  intro s pr hs k
  exact infect_at_InvInf s pr.1 d pr.2 k (hs k)

theorem Reachable_InvInf (st : List Person) (h : Reachable st) :
    AllP InvInf st := by
  induction h with
  | init samples =>
    intro k
    obtain ⟨a, ha⟩ := Community.init_getD samples k
    rw [ha]
    exact InvInf_init a
  | seed st' d picks _ ih => exact init_infected_InvInf st' d picks ih
  | tick st' o _ ih => exact advance_time_InvInf st' o ih

theorem interact_at_eq_of_rate0 (st : List Person) (i j : ℕ) (r : ℚ)
    (dr : InfectDraws) (h0 : AllP (fun p => rateZero p = true) st)
    (hr : 0 ≤ r) : interact_at st i j r dr = st := by
  unfold interact_at
  split
  · next p q hp hq =>
    have hpz : rateZero p = true := by
      have := h0 i
      rwa [getD_eq_of_getElem? st i p pd hp] at this
    dsimp only
    rw [Person.interact_eq_of_rateZero p q r dr hpz hr]
    show (st.set i p).set j q = st
    rw [set_self_of_getElem? st i p hp, set_self_of_getElem? st j q hq]
  · rfl

theorem interact_from_eq_of_rate0 (st : List Person) (i : ℕ)
    (h0 : AllP (fun p => rateZero p = true) st) :
    ∀ ds : List InteractDraw, (∀ dw ∈ ds, 0 ≤ dw.r) →
      interact_from st i ds = st := by
  intro ds
  induction ds with
  | nil => intro _; rfl
  | cons dw t ih =>
    intro hr
    unfold interact_from at ih ⊢
    simp only [List.foldl_cons]
    rw [interact_at_eq_of_rate0 st i dw.j dw.r dw.dr h0
      (hr dw (List.mem_cons_self _ _))]
    exact ih fun dw' h' => hr dw' (List.mem_cons_of_mem _ h')

theorem interact_pass_eq_of_rate0 (st : List Person)
    (h0 : AllP (fun p => rateZero p = true) st) :
    ∀ l : TickOracle, (∀ pr ∈ l, ∀ dw ∈ pr.2, 0 ≤ dw.r) →
      interact_pass st l = st := by
  intro l
  induction l with
  | nil => intro _; rfl
  | cons pr t ih =>
    intro hr
    unfold interact_pass at ih ⊢
    simp only [List.foldl_cons]
    rw [interact_from_eq_of_rate0 st pr.1 h0 pr.2
      (hr pr (List.mem_cons_self _ _))]
    exact ih fun pr' h' => hr pr' (List.mem_cons_of_mem _ h')

theorem advance_time_rate0 (st : List Person) (o : TickOracle)
    (h0 : AllP (fun p => rateZero p = true) st)
    (hr : ∀ pr ∈ o, ∀ dw ∈ pr.2, 0 ≤ dw.r) :
    AllP (fun p => rateZero p = true) (advance_time st o) ∧
      (∀ k, (st.getD k pd).status = SIRStatus.SUSCEPTIBLE →
        ((advance_time st o).getD k pd).status = SIRStatus.SUSCEPTIBLE) := by
  have hsub : ∀ pr ∈ live_filter st o, pr ∈ o := by
    intro pr hpr
    unfold live_filter at hpr
    exact List.mem_of_mem_filter hpr
  unfold advance_time
  rw [interact_pass_eq_of_rate0 st h0 (live_filter st o)
    (fun pr hpr => hr pr (hsub pr hpr))]
  have hsuscstep : ∀ p : Person, p.status = SIRStatus.SUSCEPTIBLE →
      p.advance_condition.status = SIRStatus.SUSCEPTIBLE := by
    intro p hp
    rw [Person.advance_condition_of_not_infected p (by rw [hp]; decide)]
    exact hp
  unfold advance_pass
  refine foldl_preserve
    (fun s => AllP (fun p => rateZero p = true) s ∧
      ∀ k, (st.getD k pd).status = SIRStatus.SUSCEPTIBLE →
        (s.getD k pd).status = SIRStatus.SUSCEPTIBLE)
    (fun s (pr : ℕ × List InteractDraw) => advance_at s pr.1) ?_ _ st
    ⟨h0, fun _ h => h⟩
  intro s pr hs
  refine ⟨fun k => advance_at_pointwise_k _
    Person.advance_condition_rateZero s pr.1 k (hs.1 k), fun k hk =>
    advance_at_pointwise_k (fun p => p.status = SIRStatus.SUSCEPTIBLE)
      hsuscstep s pr.1 k (hs.2 k hk)⟩

theorem run_ticks_rate0 (st : List Person) (ts : List TickOracle)
    (h0 : AllP (fun p => rateZero p = true) st)
    (hr : ∀ t ∈ ts, ∀ pr ∈ t, ∀ dw ∈ pr.2, 0 ≤ dw.r) :
    AllP (fun p => rateZero p = true) (run_ticks st ts) ∧
      (∀ k, (st.getD k pd).status = SIRStatus.SUSCEPTIBLE →
        ((run_ticks st ts).getD k pd).status = SIRStatus.SUSCEPTIBLE) := by
  unfold run_ticks
  refine foldl_preserve_mem
    (fun s => AllP (fun p => rateZero p = true) s ∧
      ∀ k, (st.getD k pd).status = SIRStatus.SUSCEPTIBLE →
        (s.getD k pd).status = SIRStatus.SUSCEPTIBLE)
    advance_time ts ?_ st ⟨h0, fun _ h => h⟩
  intro s t ht hs
  obtain ⟨ha, hb⟩ := advance_time_rate0 s t hs.1 (hr t ht)
  exact ⟨ha, fun k hk => hb k (hs.2 k hk)⟩

theorem statusLe_susceptible (b : SIRStatus) :
    statusLe SIRStatus.SUSCEPTIBLE b := by
  cases b <;> decide

theorem advance_time_count (st : List Person) (o : TickOracle) :
    st.countP (fun q => decide (q.status ≠ SIRStatus.SUSCEPTIBLE)) ≤
      (advance_time st o).countP
        (fun q => decide (q.status ≠ SIRStatus.SUSCEPTIBLE)) := by
  refine countP_le_of_pointwise _ pd st (advance_time st o)
    (advance_time_length st o).symm ?_
  intro k hk
  simp only [decide_eq_true_eq] at hk ⊢
  exact statusLe_nonSusc _ _ (advance_time_statusLe st o k) hk

end CommunityLemmas

section ConcreteObjects

/-- A concrete disease with transmission probability 1 and case-fatality 0,
used by the concrete evaluations below (its rates are irrelevant to them). -/
def dEx : Disease :=
  { infection_rate := 1, cfr := 0, incubation_period := 5, illness_period := 5,
    name := none }

/-- A concrete disease with transmission probability 0. -/
def dZero : Disease :=
  { infection_rate := 0, cfr := 0, incubation_period := 5, illness_period := 5,
    name := none }

/-- A concrete disease with case-fatality probability 1/2. -/
def dHalf : Disease :=
  { infection_rate := 0, cfr := mkRat 1 2, incubation_period := 5,
    illness_period := 5, name := none }

/-- Concrete infection draws: incubation 1 day, illness 1 day, geometric
survival draw 1. -/
def drEx : InfectDraws := { incSample := 1, illSample := 1, geomSample := 1 }

/-- Seeding draws that make the seeded person die on the first tick:
incubation draw 0, illness draw 1, geometric survival draw 1 (the person
enters ILLNESS on the first `advance_condition`, the survival counter drops
to 0, and the status becomes DEAD). -/
def drDie : InfectDraws := { incSample := 0, illSample := 1, geomSample := 1 }

/-- A reachable community state with a DEAD person: one person is created,
seeded with the case-fatality-1/2 disease, and advanced through one tick with
no interactions.  Every posited draw is in its sampler's support: the Poisson
draws 0 and 1 have positive probability at rate 5, and with `cfr = 1/2` and
illness period 1 the stored hazard is `1 - exp(log(1/2)/1) = 1/2`, so
`np.random.geometric(0.5)` returns the survival draw 1 with probability
1/2. -/
def stDead : List Person :=
  advance_time (init_infected (Community.init [1]) dHalf [(0, drDie)]) [(0, [])]

/-- A person in the DEAD status who was never infected (direct state
literal, used to exercise `Person.infect` outside its precondition). -/
def pDead : Person :=
  { avg_interactions := 1, disease := none, infection := none,
    status := SIRStatus.DEAD, survival_days := 0 }

/-- An infected person carrying the rate-zero disease. -/
def pZeroInf : Person := (Person.init 1).infect dZero drEx

/-- A two-person state: one infected carrier of the rate-zero disease, one
susceptible person. -/
def stZ : List Person := [pZeroInf, Person.init 1]

/-- A tick in which the infected person 0 interacts with the susceptible
person 1 with uniform draw 1/2. -/
def tickZ : TickOracle := [(0, [{ j := 1, r := mkRat 1 2, dr := drEx }]), (1, [])]

end ConcreteObjects

section ClaimTheorems

/-- C1: refuted on the code (code bug).  The claim says that once the illness
counter for the sampled illness period is exhausted the Infection's `status`
field becomes FINISHED, and that calls after FINISHED change no field.  In the
source, `_set_status_finished` assigns `Infection.InfectionState.FINISHED` to
the instance attribute `self.InfectionState` instead of to `self.status`
(contrast `_set_status_illness`).  With incubation and illness periods both 1:
after two `advance_infection` calls both counters are exhausted, yet `status`
is still ILLNESS (not FINISHED) while the stray attribute holds FINISHED, and
a third call still increments `_illness_counter` — not a no-op. -/
theorem C1_advance_infection_status_never_finished :
    ((Infection.init dEx 1 1).advance_infection.advance_infection).status =
      InfectionState.ILLNESS ∧
    ((Infection.init dEx 1 1).advance_infection.advance_infection).status ≠
      InfectionState.FINISHED ∧
    ((Infection.init dEx 1 1).advance_infection.advance_infection).attr_InfectionState =
      some InfectionState.FINISHED ∧
    ((Infection.init dEx 1 1).advance_infection.advance_infection.advance_infection)._illness_counter
      = 2 := by
  decide

/-- C2: refuted on the code (code bug).  The claim says `init_infected(k, d)`
chooses k distinct persons without replacement, that `k =` population size
infects all of them, and that `k >` population size raises
InsufficientPopulation.  The source calls `choice(self.people, size=num)`,
whose numpy default is `replace=True`: the draw can repeat a person and no
exception exists on any path.  Concretely, with population `[1, 1]` (two
susceptible persons) and `k = 2` drawing index 0 twice, person 1 is left
SUSCEPTIBLE even though k equals the population size. -/
theorem C2_init_infected_with_replacement_misses_person :
    (Community.init [1, 1]).length = 2 ∧
    ((init_infected (Community.init [1, 1]) dEx [(0, drEx), (0, drEx)]).getD 1 pd).status
      = SIRStatus.SUSCEPTIBLE ∧
    ((init_infected (Community.init [1, 1]) dEx [(0, drEx), (0, drEx)]).getD 0 pd).status
      = SIRStatus.INFECTED := by
  decide

/-- C3: refuted on the code (code bug).  The claim says the sampled
illness period is floored to at least 1 day before it is used as the divisor
of the mortality formula.  `Infection.__init__` stores the raw Poisson sample
with no floor; a draw of 0 (in the support of every Poisson distribution) is
stored as `_illness_period = 0` and is the divisor of
`np.log(1 - cfr) / self._illness_period`. -/
theorem C3_illness_period_zero_unfloored :
    (Infection.init dEx 3 0)._illness_period = 0 ∧
    ¬ 1 ≤ (Infection.init dEx 3 0)._illness_period := by
  decide

/-- C4: confirmed.  For every Infection constructed from a Disease with
case-fatality rate in [0,1) and realized illness period L ≥ 1, the stored
hazard h = 1 - exp(log(1 - m) / L) satisfies (1 - h)^L = 1 - m exactly in
real arithmetic, and it is the unique such constant per-day probability in
[0, 1]. -/
theorem C4_daily_mortality_compounds_to_cfr (d : Disease) (inc ill : ℕ)
    (hm0 : 0 ≤ d.cfr) (hm1 : d.cfr < 1) (hL : 1 ≤ ill) :
    (1 - (Infection.init d inc ill).daily_mortality_val) ^ ill =
      1 - (d.cfr : ℝ) ∧
    (∀ h' : ℝ, 0 ≤ h' → h' ≤ 1 →
      (1 - h') ^ ill = 1 - (d.cfr : ℝ) →
      h' = (Infection.init d inc ill).daily_mortality_val) := by
  have hmr1 : (d.cfr : ℝ) < 1 := by exact_mod_cast hm1
  have h1m : 0 < 1 - (d.cfr : ℝ) := by linarith
  have hLne : (ill : ℝ) ≠ 0 := Nat.cast_ne_zero.mpr (by omega)
  have hval : (Infection.init d inc ill).daily_mortality_val =
      1 - Real.exp (Real.log (1 - (d.cfr : ℝ)) / ill) := rfl
  constructor
  · rw [hval]
    have hcancel : (1 : ℝ) -
        (1 - Real.exp (Real.log (1 - (d.cfr : ℝ)) / ill)) =
        Real.exp (Real.log (1 - (d.cfr : ℝ)) / ill) := by ring
    rw [hcancel, ← Real.exp_nat_mul, mul_comm, div_mul_cancel₀ _ hLne,
      Real.exp_log h1m]
  · intro h' h0 h1 heq
    have hge : (0 : ℝ) ≤ 1 - h' := by linarith
    have hpos : (0 : ℝ) < 1 - h' := by
      rcases lt_or_eq_of_le hge with h | h
      · exact h
      · exfalso
        rw [← h] at heq
        rw [zero_pow (by omega : ill ≠ 0)] at heq
        linarith
    have hlog : (ill : ℝ) * Real.log (1 - h') =
        Real.log (1 - (d.cfr : ℝ)) := by
      rw [← Real.log_pow, heq]
    have hdiv : Real.log (1 - h') = Real.log (1 - (d.cfr : ℝ)) / ill := by
      rw [mul_comm] at hlog
      exact (eq_div_iff hLne).mpr hlog
    have hexp : 1 - h' = Real.exp (Real.log (1 - (d.cfr : ℝ)) / ill) := by
      rw [← hdiv, Real.exp_log hpos]
    rw [hval]
    linarith

/-- C4 witness: the compounding identity at the concrete disease with
case-fatality 1/2 and realized illness period 2. -/
theorem C4_daily_mortality_compounds_to_cfr_witness :
    (0 ≤ dHalf.cfr ∧ dHalf.cfr < 1 ∧ 1 ≤ 2) ∧
    (1 - (Infection.init dHalf 3 2).daily_mortality_val) ^ 2 =
      1 - (dHalf.cfr : ℝ) :=
  ⟨⟨by decide, by decide, by decide⟩,
    (C4_daily_mortality_compounds_to_cfr dHalf 3 2 (by decide) (by decide)
      (by decide)).1⟩

/-- C5 counterexample: the claim "non-null Infection iff status == INFECTED,
released on DEAD as well as RECOVERED" fails on a reachable state.  One
person is created, seeded with the case-fatality-1/2 disease (incubation
draw 0, illness draw 1, geometric survival draw 1 — all in the samplers'
support, see `stDead`) and advanced one tick: the person dies, and
`advance_condition` sets DEAD without clearing `self.infection` (the source
clears it only on the RECOVERED branch), so a DEAD person still holds the
Infection. -/
theorem C5_dead_person_retains_infection :
    Reachable stDead ∧
    (stDead.getD 0 pd).status = SIRStatus.DEAD ∧
    (stDead.getD 0 pd).infection.isSome = true ∧
    ¬ ((stDead.getD 0 pd).infection.isSome = true ↔
        (stDead.getD 0 pd).status = SIRStatus.INFECTED) := by
  refine ⟨?_, by decide, by decide, by decide⟩
  exact Reachable.tick _ _ (Reachable.seed _ _ _ (Reachable.init [1]))

/-- C5 (amended): in every state reachable by the public operations, a Person
holds a non-null Infection iff their status is INFECTED or DEAD — the
reference is released on the transition to RECOVERED but retained on the
transition to DEAD. -/
theorem C5_infection_iff_infected_or_dead (st : List Person)
    (h : Reachable st) (k : ℕ) :
    (st.getD k pd).infection.isSome = true ↔
      ((st.getD k pd).status = SIRStatus.INFECTED ∨
        (st.getD k pd).status = SIRStatus.DEAD) :=
  Reachable_InvInf st h k

/-- C5 witness: the amended invariant at the freshly constructed one-person
community. -/
theorem C5_infection_iff_infected_or_dead_witness :
    Reachable (Community.init [1]) ∧
    (((Community.init [1]).getD 0 pd).infection.isSome = true ↔
      (((Community.init [1]).getD 0 pd).status = SIRStatus.INFECTED ∨
        ((Community.init [1]).getD 0 pd).status = SIRStatus.DEAD)) :=
  ⟨Reachable.init [1],
    C5_infection_iff_infected_or_dead _ (Reachable.init [1]) 0⟩

/-- C6 counterexample: the claim says calling `infect` on a non-susceptible
person signals an explicit PreconditionViolation error.  `Person.infect` in
the source contains no status check and no raise on any path (the embedding
is a total function): called on a DEAD person it silently sets the status to
INFECTED and installs a fresh Infection. -/
theorem C6_infect_silently_reinfects_dead :
    pDead.status ≠ SIRStatus.SUSCEPTIBLE ∧
    (pDead.infect dEx drEx).status = SIRStatus.INFECTED ∧
    (pDead.infect dEx drEx).infection.isSome = true := by
  decide

/-- C6 (amended): `Person.infect` itself performs no precondition check and
unconditionally sets INFECTED; the SUSCEPTIBLE precondition is enforced only
at the normal call site `Person.interact`, whose guard leaves any
non-susceptible partner untouched (never calling `infect` on them). -/
theorem C6_no_check_in_infect_guard_in_interact :
    (∀ (p : Person) (d : Disease) (dr : InfectDraws),
      (p.infect d dr).status = SIRStatus.INFECTED) ∧
    (∀ (p q : Person) (r : ℚ) (dr : InfectDraws),
      q.is_susceptible = false → (p.interact q r dr).2 = q) := by
  constructor
  · intro p d dr
    rfl
  · intro p q r dr h
    unfold Person.interact
    simp [h]

/-- C6 witness: the amended statement at concrete persons — a direct `infect`
on a fresh person succeeds, and `interact` leaves a DEAD partner unchanged. -/
theorem C6_no_check_in_infect_guard_in_interact_witness :
    ((Person.init 1).infect dZero drEx).status = SIRStatus.INFECTED ∧
    pDead.is_susceptible = false ∧
    ((Person.init 1).interact pDead (1/2) drEx).2 = pDead :=
  ⟨C6_no_check_in_infect_guard_in_interact.1 _ _ _, by decide,
    C6_no_check_in_infect_guard_in_interact.2 _ _ _ _ (by decide)⟩

/-- C7 counterexample: across arbitrary sequences of the public operations,
statuses are not monotone and DEAD is not terminal: `init_infected` picks
from the whole population (`choice(self.people, ...)`), so seeding a second
time after a death force-infects the DEAD person, reversing DEAD →
INFECTED.  Both seedings use the case-fatality-1/2 disease, whose hazard at
illness period 1 is 1/2, so every geometric survival draw of 1 posited here
is in `np.random.geometric`'s support (see `stDead`). -/
theorem C7_init_infected_resurrects_dead :
    (stDead.getD 0 pd).status = SIRStatus.DEAD ∧
    ((init_infected stDead dHalf [(0, drDie)]).getD 0 pd).status =
      SIRStatus.INFECTED ∧
    ¬ statusLe SIRStatus.DEAD SIRStatus.INFECTED ∧
    Reachable (init_infected stDead dHalf [(0, drDie)]) := by
  refine ⟨by decide, by decide, by decide, ?_⟩
  exact Reachable.seed _ _ _
    (Reachable.tick _ _ (Reachable.seed _ _ _ (Reachable.init [1])))

/-- C7 (amended): under every `advance_time` tick, from any state, each
person's status moves only forward along SUSCEPTIBLE → INFECTED →
{RECOVERED | DEAD} (`statusLe`), the count of non-SUSCEPTIBLE persons is
non-decreasing tick over tick, and a seeding applied to a freshly
constructed community also only moves statuses forward; only a re-seeding
applied after deaths (the counterexample) can move a status backward. -/
theorem C7_statuses_monotone_under_ticks :
    (∀ (st : List Person) (o : TickOracle) (k : ℕ),
      statusLe ((st.getD k pd).status)
        (((advance_time st o).getD k pd).status)) ∧
    (∀ (st : List Person) (o : TickOracle),
      st.countP (fun q => decide (q.status ≠ SIRStatus.SUSCEPTIBLE)) ≤
        (advance_time st o).countP
          (fun q => decide (q.status ≠ SIRStatus.SUSCEPTIBLE))) ∧
    (∀ (samples : List ℚ) (d : Disease) (picks : List (ℕ × InfectDraws))
      (k : ℕ),
      statusLe (((Community.init samples).getD k pd).status)
        (((init_infected (Community.init samples) d picks).getD k pd).status)) := by
  refine ⟨advance_time_statusLe, advance_time_count, ?_⟩
  intro samples d picks k
  obtain ⟨a, ha⟩ := Community.init_getD samples k
  rw [ha]
  exact statusLe_susceptible _

/-- C8: confirmed.  With a zero per-contact transmission probability no
interaction creates an infection: `Person.interact` draws `r` in [0,1) and
infects only when `r < 0`, which is impossible, so the call returns both
persons unchanged; consequently over any run of ticks in a state whose
diseases all have `infection_rate = 0`, every initially SUSCEPTIBLE person is
still SUSCEPTIBLE. -/
theorem C8_rate_zero_no_new_infections :
    (∀ (p q : Person) (r : ℚ) (dr : InfectDraws),
      rateZero p = true → 0 ≤ r → p.interact q r dr = (p, q)) ∧
    (∀ (st : List Person) (ts : List TickOracle),
      (∀ k, rateZero (st.getD k pd) = true) →
      (∀ t ∈ ts, ∀ pr ∈ t, ∀ dw ∈ pr.2, 0 ≤ dw.r) →
      ∀ k, (st.getD k pd).status = SIRStatus.SUSCEPTIBLE →
        ((run_ticks st ts).getD k pd).status = SIRStatus.SUSCEPTIBLE) :=
  ⟨Person.interact_eq_of_rateZero,
    fun st ts h0 hr => (run_ticks_rate0 st ts h0 hr).2⟩

/-- C8 witness: a two-person state (one rate-zero carrier, one susceptible)
run for one tick in which the carrier interacts with the susceptible person;
the susceptible person remains SUSCEPTIBLE. -/
theorem C8_rate_zero_no_new_infections_witness :
    (∀ k, rateZero (stZ.getD k pd) = true) ∧
    (∀ t ∈ [tickZ], ∀ pr ∈ t, ∀ dw ∈ pr.2, 0 ≤ dw.r) ∧
    (stZ.getD 1 pd).status = SIRStatus.SUSCEPTIBLE ∧
    ((run_ticks stZ [tickZ]).getD 1 pd).status = SIRStatus.SUSCEPTIBLE := by
  have h0 : ∀ k, rateZero (stZ.getD k pd) = true := by
    intro k
    match k with
    | 0 => decide
    | 1 => decide
    | (n + 2) => rfl
  have hr : ∀ t ∈ [tickZ], ∀ pr ∈ t, ∀ dw ∈ pr.2, 0 ≤ dw.r := by decide
  exact ⟨h0, hr, by decide,
    C8_rate_zero_no_new_infections.2 stZ [tickZ] h0 hr 1 (by decide)⟩

/-- C9: refuted on the code (code bug).  The claim says `get_recovery_time()`
returns the sum of the remaining incubation and illness counters with no
error.  The body reads `self.incubation_period` and `self.illness_period`,
attributes that no code path ever creates (the constructor sets
`_incubation_period` and `_illness_period`), so every call raises
AttributeError — embedded as the always-`none` result of the Option-valued
attribute reads. -/
theorem C9_get_recovery_time_attribute_error (d : Disease) (inc ill : ℕ) :
    (Infection.init d inc ill).get_recovery_time = none :=
  rfl

/-- C10: confirmed.  `Person.interact` never mutates the caller — the first
component of the returned pair is the caller, unchanged in every field — and
whenever the guard "self INFECTED and other SUSCEPTIBLE" fails the partner is
returned unchanged as well. -/
theorem C10_interact_frame (p q : Person) (r : ℚ) (dr : InfectDraws) :
    (p.interact q r dr).1 = p ∧
    (¬ (p.is_infected = true ∧ q.is_susceptible = true) →
      (p.interact q r dr).2 = q) := by
  refine ⟨Person.interact_fst p q r dr, ?_⟩
  intro h
  unfold Person.interact
  rw [if_neg (by rw [Bool.and_eq_true]; exact h)]

/-- C10 witness: the frame property at two concrete susceptible persons. -/
theorem C10_interact_frame_witness :
    ((Person.init 1).interact (Person.init 2) (1/2) drEx).1 = Person.init 1 ∧
    ¬ ((Person.init 1).is_infected = true ∧
        (Person.init 2).is_susceptible = true) ∧
    ((Person.init 1).interact (Person.init 2) (1/2) drEx).2 = Person.init 2 :=
  ⟨(C10_interact_frame _ _ _ _).1, by decide,
    (C10_interact_frame _ _ _ _).2 (by decide)⟩

end ClaimTheorems
